import Mathlib

/-!
Verification development for the media-relay bot in `src/main.py`.

The first part embeds the Link Matcher: the per-platform scan that
`handle_message` performs with `re.findall(pattern, message_text,
re.IGNORECASE)` over the `PLATFORMS` table

    PLATFORMS = {
        "tiktok":    r"https?://(www\.)?tiktok\.com/@[^/]+/video/\d+",
        "instagram": r"https?://(www\.)?instagram\.com/(p|reel)/[^/]+/",
        "twitter":   r"https?://(www\.)?(twitter\.com|x\.com)/[^/]+/status/\d+",
        "tumblr":    r"https?://[^/]+\.tumblr\.com/post/\d+",
    }

Python `re.findall` yields, per match, the contents of the capture
groups when the pattern has groups (a plain string for exactly one
group, a tuple of strings for two or more), and the whole matched text
only when the pattern has no group at all.  `ReVal` mirrors that yield.
Each pattern is embedded as a dedicated matching function; alternation
and the optional `(www\.)?` group are tried greedily with backtracking
into the continuation, exactly as the `re` engine does, and character
comparison goes through `Char.toLower` to model `re.IGNORECASE`.
-/

/-- Yield of one `re.findall` item: a plain string (patterns with at most
one group) or a tuple of group strings (patterns with several groups). -/
inductive ReVal where
  | str (s : String)
  | tup (ss : List String)
deriving DecidableEq, Repr

/-- A platform matcher: given the text suffix starting at the candidate
position, return `none` (no match here) or the remaining suffix after the
match together with the `re.findall` yield for that match. -/
abbrev Matcher := List Char → Option (List Char × ReVal)

/-- Consume a literal (given in lowercase) case-insensitively, returning the
rest of the input; models a literal run inside a pattern under
`re.IGNORECASE`. -/
def dropLitCI : List Char → List Char → Option (List Char)
  | [], s => some s
  | _ :: _, [] => none
  | a :: as, c :: cs => if c.toLower == a.toLower then dropLitCI as cs else none

/-- `s?://` after the literal `http`: try the greedy branch with `s` first,
then without, as the regex engine does for `https?://`. -/
def schemeTail (s : List Char) : Option (List Char) :=
  dropLitCI "s://".data s <|> dropLitCI "://".data s

/-- Tail of the tiktok pattern after the optional `www.` group:
`tiktok\.com/@[^/]+/video/\d+`; `g1` is the text captured by `(www\.)?`. -/
def tiktokTail (g1 : List Char) (s : List Char) : Option (List Char × ReVal) :=
  (dropLitCI "tiktok.com/@".data s).bind fun s1 =>
  let (user, s2) := s1.span (fun c => c != '/')
  if user.isEmpty then none else
  (dropLitCI "/video/".data s2).bind fun s3 =>
  let (digits, s4) := s3.span Char.isDigit
  if digits.isEmpty then none else
  some (s4, ReVal.str g1.asString)

/-- `https?://(www\.)?tiktok\.com/@[^/]+/video/\d+` — one capture group, so
the findall yield is the `(www\.)?` group text. -/
def tiktokMatch : Matcher := fun s =>
  (dropLitCI "http".data s).bind fun s0 =>
  (schemeTail s0).bind fun s1 =>
  match dropLitCI "www.".data s1 with
  | some s2 => tiktokTail (s1.take 4) s2 <|> tiktokTail [] s1
  | none => tiktokTail [] s1

/-- After the `(p|reel)` group of the instagram pattern: `/[^/]+/`. -/
def instaAfterKind (g1 g2 : List Char) (s : List Char) :
    Option (List Char × ReVal) :=
  (dropLitCI "/".data s).bind fun s1 =>
  let (idpart, s2) := s1.span (fun c => c != '/')
  if idpart.isEmpty then none else
  (dropLitCI "/".data s2).bind fun s3 =>
  some (s3, ReVal.tup [g1.asString, g2.asString])

/-- Tail of the instagram pattern after the optional `www.` group:
`instagram\.com/(p|reel)/[^/]+/`, alternation tried in pattern order. -/
def instaTail (g1 : List Char) (s : List Char) : Option (List Char × ReVal) :=
  (dropLitCI "instagram.com/".data s).bind fun s0 =>
  ((dropLitCI "p".data s0).bind fun s1 => instaAfterKind g1 (s0.take 1) s1)
  <|> ((dropLitCI "reel".data s0).bind fun s1 => instaAfterKind g1 (s0.take 4) s1)

/-- `https?://(www\.)?instagram\.com/(p|reel)/[^/]+/` — two capture groups,
so the findall yield is the tuple of both group texts. -/
def instaMatch : Matcher := fun s =>
  (dropLitCI "http".data s).bind fun s0 =>
  (schemeTail s0).bind fun s1 =>
  match dropLitCI "www.".data s1 with
  | some s2 => instaTail (s1.take 4) s2 <|> instaTail [] s1
  | none => instaTail [] s1

/-- After the `(twitter\.com|x\.com)` group: `/[^/]+/status/\d+`. -/
def twitterAfterDomain (g1 g2 : List Char) (s : List Char) :
    Option (List Char × ReVal) :=
  (dropLitCI "/".data s).bind fun s1 =>
  let (user, s2) := s1.span (fun c => c != '/')
  if user.isEmpty then none else
  (dropLitCI "/status/".data s2).bind fun s3 =>
  let (digits, s4) := s3.span Char.isDigit
  if digits.isEmpty then none else
  some (s4, ReVal.tup [g1.asString, g2.asString])

/-- Tail of the twitter pattern after the optional `www.` group:
`(twitter\.com|x\.com)/[^/]+/status/\d+`, alternation in pattern order. -/
def twitterTail (g1 : List Char) (s : List Char) : Option (List Char × ReVal) :=
  ((dropLitCI "twitter.com".data s).bind fun s1 =>
    twitterAfterDomain g1 (s.take 11) s1)
  <|> ((dropLitCI "x.com".data s).bind fun s1 =>
    twitterAfterDomain g1 (s.take 5) s1)

/-- `https?://(www\.)?(twitter\.com|x\.com)/[^/]+/status/\d+` — two capture
groups, so the findall yield is the tuple of both group texts. -/
def twitterMatch : Matcher := fun s =>
  (dropLitCI "http".data s).bind fun s0 =>
  (schemeTail s0).bind fun s1 =>
  match dropLitCI "www.".data s1 with
  | some s2 => twitterTail (s1.take 4) s2 <|> twitterTail [] s1
  | none => twitterTail [] s1

/-- `https?://[^/]+\.tumblr\.com/post/\d+` — no capture group, so the
findall yield is the whole matched text.  Greedy backtracking of `[^/]+`
before `\.tumblr\.com/` forces the split at exactly eleven characters
before the end of the maximal slash-free run. -/
def tumblrMatch : Matcher := fun s =>
  (dropLitCI "http".data s).bind fun s0 =>
  (schemeTail s0).bind fun s1 =>
  let (run, s2) := s1.span (fun c => c != '/')
  if run.length < 12 then none
  else if (run.drop (run.length - 11)).map Char.toLower = ".tumblr.com".data then
    (dropLitCI "/post/".data s2).bind fun s3 =>
    let (digits, s4) := s3.span Char.isDigit
    if digits.isEmpty then none
    else some (s4, ReVal.str (s.take (s.length - s4.length)).asString)
  else none

/-- The `PLATFORMS` table of `src/main.py` in its declared (dict insertion)
order, each regex replaced by its embedded matcher. -/
def PLATFORMS : List (String × Matcher) :=
  [("tiktok", tiktokMatch), ("instagram", instaMatch),
   ("twitter", twitterMatch), ("tumblr", tumblrMatch)]

/-- The `re.findall` scan, with the absolute start position of each match:
from position `i`, try the pattern; on failure move one character right; on
a match record it and resume right after the matched text (after an empty
match the engine resumes one character further, as the `re` module does). -/
def findallPosAux (m : Matcher) : Nat → Nat → List Char → List (Nat × ReVal)
  | 0, _, _ => []
  | _ + 1, _, [] => []
  | fuel + 1, i, c :: rest =>
    match m (c :: rest) with
    | none => findallPosAux m fuel (i + 1) rest
    | some (rem, v) =>
      if rest.length + 1 - rem.length = 0 then
        (i, v) :: findallPosAux m fuel (i + 1) rest
      else
        (i, v) :: findallPosAux m fuel (i + (rest.length + 1 - rem.length)) rem

/-- `re.findall` with match start positions, over a whole string. -/
def findallPos (m : Matcher) (text : String) : List (Nat × ReVal) :=
  findallPosAux m (text.data.length + 1) 0 text.data

/-- `re.findall(pattern, text, re.IGNORECASE)`: the list of yields in
left-to-right match order. -/
def findall (m : Matcher) (text : String) : List ReVal :=
  (findallPos m text).map Prod.snd

/-- The per-platform scan of `handle_message`: for each platform of
`PLATFORMS` in declared order, every findall yield paired with the
platform tag. -/
def linkMatches (text : String) : List (String × ReVal) :=
  PLATFORMS.flatMap fun pf => (findall pf.2 text).map fun v => (pf.1, v)

/-- `linkMatches` with the match start positions retained. -/
def linkMatchesPos (text : String) : List (String × Nat × ReVal) :=
  PLATFORMS.flatMap fun pf =>
    (findallPos pf.2 text).map fun iv => (pf.1, iv.1, iv.2)

/-- Index of a platform in the declared order of `PLATFORMS`. -/
def platRank : String → Nat
  | "tiktok" => 0
  | "instagram" => 1
  | "twitter" => 2
  | "tumblr" => 3
  | _ => 4

/-!
Second part: the Delivery Pipeline, `process_url` of `src/main.py`.

`process_url` is a `try/except/finally` over external calls (the chat
frontend's `reply_text` / `edit_message_text` / `reply_video` /
`reply_photo`, the Fetcher `extract_info`/`prepare_filename`, and the
filesystem `os.path.exists` / `os.remove`).  The embedding makes the
outcome of every external call explicit in an `Env`, and records every
attempted call as an `Event` in order, so a run of `process_url` is a
trace plus a flag saying whether an exception escaped the function.
-/

/-- Python `str.capitalize()`: first character uppercased, the rest
lowercased (`platform.capitalize()` in the f-strings of `process_url`). -/
def pyCapitalize (s : String) : String :=
  match s.data with
  | [] => ""
  | c :: cs => String.mk (c.toUpper :: cs.map Char.toLower)

/-- Python `str.endswith`: a plain suffix test, over the character list. -/
def strEndsWith (s t : String) : Bool :=
  s.data.drop (s.data.length - t.data.length) == t.data

/-- `file_path.endswith((".mp4", ".mkv", ".webm"))`. -/
def isVideoPath (p : String) : Bool :=
  strEndsWith p ".mp4" || strEndsWith p ".mkv" || strEndsWith p ".webm"

/-- `file_path.endswith((".jpg", ".jpeg", ".png", ".gif"))`. -/
def isImagePath (p : String) : Bool :=
  strEndsWith p ".jpg" || strEndsWith p ".jpeg" || strEndsWith p ".png"
    || strEndsWith p ".gif"

/-- The texts `process_url` writes into chat messages, kept symbolic; the
exact f-string of the source is recovered by `Msg.text`. -/
inductive Msg where
  | processing (platform : String)
  | sendingVideo (platform : String)
  | sendingPhoto (platform : String)
  | videoDone
  | photoDone
  | unsupported (platform : String)
  | error (video : Bool) (platform : String)
deriving DecidableEq, Repr

/-- The literal message texts of `process_url` (lines 79, 94, 102, 109,
117, 124 and 129 of `src/main.py`).  Note the unsupported text uses the
raw `platform` while the others capitalize it, exactly as the source. -/
def Msg.text : Msg → String
  | .processing p => "Processing media from " ++ (pyCapitalize p ++ "...")
  | .sendingVideo p => "Sending video from " ++ (pyCapitalize p ++ "...")
  | .sendingPhoto p => "Sending photo from " ++ (pyCapitalize p ++ "...")
  | .videoDone => "Video sent successfully!"
  | .photoDone => "Photo sent successfully!"
  | .unsupported p => "Sorry, unsupported media type from " ++ (p ++ ".")
  | .error true p =>
      "Error sending video from " ++
        (pyCapitalize p ++ ". Please try again or use a different link.")
  | .error false p =>
      "Error sending media from " ++
        (pyCapitalize p ++ ". Please try again or use a different link.")

/-- The caption `f"From {platform.capitalize()}: {url}"` of the
`reply_video` / `reply_photo` calls. -/
def caption (platform url : String) : String :=
  "From " ++ (pyCapitalize platform ++ (": " ++ url))

/-- One attempted external call of a `process_url` run, in order, with the
outcome the environment assigned to it (`ok = false` means the call
raised). -/
inductive Event where
  | createStatus (m : Msg) (ok : Bool)
  | editStatus (m : Msg) (ok : Bool)
  | sendVideo (path : String) (cap : String) (ok : Bool)
  | sendPhoto (path : String) (cap : String) (ok : Bool)
  | replyError (m : Msg) (ok : Bool)
  | removeFile (path : String) (ok : Bool)
deriving DecidableEq, Repr

/-- Outcomes of the external calls one `process_url` run can make: which
calls raise, what the Fetcher returns (`none` = `extract_info` raises),
and what the filesystem says at cleanup time. -/
structure Env where
  replyStatusOk : Bool
  makedirsOk : Bool
  fetch : Option String
  editSendingOk : Bool
  sendOk : Bool
  editDoneOk : Bool
  editUnsupportedOk : Bool
  editErrorOk : Bool
  replyErrorOk : Bool
  pathExists : Bool
  removeOk : Bool

/-- Result of the `try` block of `process_url`: events so far, whether
`status_message` was assigned, the value of `file_path`, and whether an
exception is in flight when the block exits. -/
structure TryOut where
  events : List Event
  statusCreated : Bool
  filePath : Option String
  raised : Bool
deriving DecidableEq, Repr

/-- The `try` block of `process_url` (lines 77–125 of `src/main.py`):
create the status message, invoke the Fetcher, then dispatch on the file
extension; any raising call aborts the block with the exception in
flight. -/
def tryPhase (env : Env) (url platform : String) : TryOut :=
  if env.replyStatusOk then
    if env.makedirsOk then
      match env.fetch with
      | some path =>
        if isVideoPath path then
          if env.editSendingOk then
            if env.sendOk then
              { events := [.createStatus (.processing platform) true,
                           .editStatus (.sendingVideo platform) true,
                           .sendVideo path (caption platform url) true,
                           .editStatus .videoDone env.editDoneOk],
                statusCreated := true, filePath := some path,
                raised := !env.editDoneOk }
            else
              { events := [.createStatus (.processing platform) true,
                           .editStatus (.sendingVideo platform) true,
                           .sendVideo path (caption platform url) false],
                statusCreated := true, filePath := some path, raised := true }
          else
            { events := [.createStatus (.processing platform) true,
                         .editStatus (.sendingVideo platform) false],
              statusCreated := true, filePath := some path, raised := true }
        else if isImagePath path then
          if env.editSendingOk then
            if env.sendOk then
              { events := [.createStatus (.processing platform) true,
                           .editStatus (.sendingPhoto platform) true,
                           .sendPhoto path (caption platform url) true,
                           .editStatus .photoDone env.editDoneOk],
                statusCreated := true, filePath := some path,
                raised := !env.editDoneOk }
            else
              { events := [.createStatus (.processing platform) true,
                           .editStatus (.sendingPhoto platform) true,
                           .sendPhoto path (caption platform url) false],
                statusCreated := true, filePath := some path, raised := true }
          else
            { events := [.createStatus (.processing platform) true,
                         .editStatus (.sendingPhoto platform) false],
              statusCreated := true, filePath := some path, raised := true }
        else
          { events := [.createStatus (.processing platform) true,
                       .editStatus (.unsupported platform) env.editUnsupportedOk],
            statusCreated := true, filePath := some path,
            raised := !env.editUnsupportedOk }
      | none =>
        { events := [.createStatus (.processing platform) true],
          statusCreated := true, filePath := none, raised := true }
    else
      { events := [.createStatus (.processing platform) true],
        statusCreated := true, filePath := none, raised := true }
  else
    { events := [.createStatus (.processing platform) false],
      statusCreated := false, filePath := none, raised := true }

/-- `'video' if file_path and file_path.endswith((".mp4", ".mkv", ".webm"))
else 'media'` of line 129: Python truthiness of `file_path` then the
extension test. -/
def errorKindIsVideo : Option String → Bool
  | some p => p != "" && isVideoPath p
  | none => false

/-- The `except` block of `process_url` (lines 127–141): build the error
text, edit the status message if one exists, and on a failing edit fall
back to a fresh reply; returns its events and whether an exception is
still escaping after the block. -/
def errPhase (env : Env) (platform : String) (t : TryOut) : List Event × Bool :=
  if t.raised then
    let em : Msg := .error (errorKindIsVideo t.filePath) platform
    if t.statusCreated then
      if env.editErrorOk then ([.editStatus em true], false)
      else ([.editStatus em false, .replyError em env.replyErrorOk],
            !env.replyErrorOk)
    else ([.replyError em env.replyErrorOk], !env.replyErrorOk)
  else ([], false)

/-- The `finally` block of `process_url` (lines 143–146): if `file_path`
is truthy and the file exists, attempt `os.remove`; a raising remove
escapes the function (there is no handler around it). -/
def cleanupPhase (env : Env) (t : TryOut) : List Event × Bool :=
  match t.filePath with
  | some p =>
    if p ≠ "" then
      if env.pathExists then ([.removeFile p env.removeOk], !env.removeOk)
      else ([], false)
    else ([], false)
  | none => ([], false)

/-- Result of one `process_url` run: the ordered trace of attempted
external calls, and whether an exception escaped the function. -/
structure JobResult where
  events : List Event
  escaped : Bool
deriving DecidableEq, Repr

/-- `process_url` of `src/main.py` (lines 74–146): try block, except
block, finally block; an exception escapes iff error reporting itself
raised or the cleanup remove raised (the `finally` runs in all cases and
its exception replaces any in-flight one). -/
def process_url (env : Env) (url platform : String) : JobResult :=
  let t := tryPhase env url platform
  let er := errPhase env platform t
  let fin := cleanupPhase env t
  { events := t.events ++ er.1 ++ fin.1, escaped := er.2 || fin.2 }

/-- Python `str()` of a findall yield, as `process_url` would interpolate
it into the caption (a tuple prints as `('a', 'b')`). -/
def ReVal.format : ReVal → String
  | .str s => s
  | .tup ss =>
      "(" ++ (String.intercalate ", "
        (ss.map fun s => String.mk (Char.ofNat 39 :: (s.data ++ [Char.ofNat 39])))
        ++ ")")

/-- The sequential `await process_url(...)` loop of `handle_message`
(lines 68–72): jobs run one after the other, each event tagged with its
job index; an escaping job aborts the loop (its exception propagates out
of `handle_message`). -/
def runJobsAux (envs : Nat → Env) : Nat → List (String × ReVal) → List (Nat × Event) × Bool
  | _, [] => ([], false)
  | i, (platform, v) :: rest =>
    let r := process_url (envs i) (ReVal.format v) platform
    if r.escaped then (r.events.map fun e => (i, e), true)
    else
      let w := runJobsAux envs (i + 1) rest
      ((r.events.map fun e => (i, e)) ++ w.1, w.2)

/-- `handle_message` of `src/main.py` (lines 63–72): nothing on empty
text, otherwise the matched links are processed strictly in order. -/
def handle_message (envs : Nat → Env) (text : String) : List (Nat × Event) × Bool :=
  if text = "" then ([], false) else runJobsAux envs 0 (linkMatches text)

/-- Events that attempt to create the status message (`reply_text` whose
result is bound to `status_message`). -/
def isCreateEvent : Event → Bool
  | .createStatus _ _ => true
  | _ => false

/-- Successful creations of the status message. -/
def isCreateOkEvent : Event → Bool
  | .createStatus _ true => true
  | _ => false

/-- Attempted `os.remove` events. -/
def isRemoveEvent : Event → Bool
  | .removeFile _ _ => true
  | _ => false

/-- Attempted media sends (`reply_video` / `reply_photo`). -/
def isSendEvent : Event → Bool
  | .sendVideo _ _ _ => true
  | .sendPhoto _ _ _ => true
  | _ => false

/-- Edits of the status message to one of the two `Sending ...` texts. -/
def isSendingEdit : Event → Bool
  | .editStatus (.sendingVideo _) _ => true
  | .editStatus (.sendingPhoto _) _ => true
  | _ => false

/-- Progress-update texts: everything after the initial `Processing`
message that is not error reporting. -/
def isProgressMsg : Msg → Bool
  | .sendingVideo _ => true
  | .sendingPhoto _ => true
  | .videoDone => true
  | .photoDone => true
  | .unsupported _ => true
  | _ => false

/-- Events that post a message (rather than edit one) carrying a
progress-update text. -/
def isProgressPost : Event → Bool
  | .createStatus m _ => isProgressMsg m
  | .replyError m _ => isProgressMsg m
  | _ => false

/-- The text the status message holds after the run: the last successful
create or edit, if any. -/
def finalStatusMsg (events : List Event) : Option Msg :=
  events.foldl
    (fun acc e =>
      match e with
      | .createStatus m true => some m
      | .editStatus m true => some m
      | _ => acc)
    none

/-- Environment in which every external call succeeds and the Fetcher
returns `downloads/987.mp4`. -/
def allOkEnv : Env :=
  { replyStatusOk := true, makedirsOk := true, fetch := some "downloads/987.mp4",
    editSendingOk := true, sendOk := true, editDoneOk := true,
    editUnsupportedOk := true, editErrorOk := true, replyErrorOk := true,
    pathExists := true, removeOk := true }

/-- Like `allOkEnv` but `os.remove` raises. -/
def removeFailsEnv : Env := { allOkEnv with removeOk := false }

/-- The Fetcher raises; everything else succeeds. -/
def fetchFailsEnv : Env := { allOkEnv with fetch := none }

/-- The Fetcher raises, the error edit raises, and the fallback reply
raises too. -/
def errorReportFailsEnv : Env :=
  { allOkEnv with fetch := none, editErrorOk := false, replyErrorOk := false }

/-- The Fetcher returns a video file but the send raises, the error edit
raises, and the fallback reply succeeds. -/
def sendFailsEditErrorFailsEnv : Env :=
  { allOkEnv with sendOk := false, editErrorOk := false }

/-- The Fetcher returns a file with an extension outside both known
families; every call succeeds. -/
def unsupportedEnv : Env := { allOkEnv with fetch := some "downloads/987.bin" }

/-!
Third part: the claims.
-/

/-- C1: the claim expects the Link Matcher to yield the full matched URL,
but for the tiktok pattern (which contains the capture group `(www\.)?`)
`re.findall` yields the group text instead, so the scenario input yields
`[("tiktok", "www.")]` and not the full URL.  The code contradicts the
documented scenario: a findall-with-capture-group slip. -/
theorem tiktok_scenario_findall_yields_group :
    linkMatches "check this https://www.tiktok.com/@someuser/video/1234567890123456789"
        = [("tiktok", ReVal.str "www.")] ∧
      linkMatches "check this https://www.tiktok.com/@someuser/video/1234567890123456789"
        ≠ [("tiktok",
            ReVal.str "https://www.tiktok.com/@someuser/video/1234567890123456789")] := by
  constructor
  · decide
  · decide

/-- C2: whenever the Fetcher is reached and returns a path to an existing
file, the run performs exactly one `os.remove` attempt, for that exact
path, and it is the very last external call of the run — after every
send and status-edit attempt, on every terminal path. -/
theorem process_url_cleanup_exactly_once (env : Env) (url platform p : String)
    (h1 : env.replyStatusOk = true) (h2 : env.makedirsOk = true)
    (h3 : env.fetch = some p) (h4 : p ≠ "") (h5 : env.pathExists = true) :
    (process_url env url platform).events.getLast?
        = some (.removeFile p env.removeOk) ∧
      (process_url env url platform).events.countP isRemoveEvent = 1 := by
  obtain ⟨rS, mk, f, eS, sO, eD, eU, eE, rE, pE, rO⟩ := env
  simp only at h1 h2 h3 h5
  subst h1 h2 h3 h5
  cases hv : isVideoPath p <;> cases hi : isImagePath p <;>
    cases eS <;> cases sO <;> cases eD <;> cases eU <;>
    cases eE <;> cases rE <;> cases rO <;>
    simp [process_url, tryPhase, errPhase, cleanupPhase, errorKindIsVideo,
      isRemoveEvent, h4, hv, hi, List.countP_cons]

/-- C2 witness: the happy-path run at a concrete environment. -/
theorem process_url_cleanup_exactly_once_witness :
    (process_url allOkEnv "u" "tiktok").events.getLast?
        = some (.removeFile "downloads/987.mp4" allOkEnv.removeOk) ∧
      (process_url allOkEnv "u" "tiktok").events.countP isRemoveEvent = 1 :=
  process_url_cleanup_exactly_once allOkEnv "u" "tiktok" "downloads/987.mp4"
    rfl rfl rfl (by decide) rfl

/-- C3 counterexample: with every call succeeding except `os.remove`, the
remove is attempted (and fails) and the exception escapes `process_url` —
refuting the claim that a failing cleanup deletion does not propagate. -/
theorem remove_failure_escapes_cex :
    (process_url removeFailsEnv "u" "tiktok").escaped = true ∧
      (process_url removeFailsEnv "u" "tiktok").events.getLast?
        = some (.removeFile "downloads/987.mp4" false) := by
  constructor
  · decide
  · decide

/-- C3 amended: `os.remove` stands in the `finally` block with no handler
around it, so when the cleanup deletion fails the exception escapes
`process_url`; the remove attempt is still the last external call, so
`process_url` itself sends no message about the failure. -/
theorem remove_failure_propagates (env : Env) (url platform p : String)
    (h1 : env.replyStatusOk = true) (h2 : env.makedirsOk = true)
    (h3 : env.fetch = some p) (h4 : p ≠ "") (h5 : env.pathExists = true)
    (h6 : env.removeOk = false) :
    (process_url env url platform).escaped = true ∧
      (process_url env url platform).events.getLast?
        = some (.removeFile p false) := by
  obtain ⟨rS, mk, f, eS, sO, eD, eU, eE, rE, pE, rO⟩ := env
  simp only at h1 h2 h3 h5 h6
  subst h1 h2 h3 h5 h6
  cases hv : isVideoPath p <;> cases hi : isImagePath p <;>
    cases eS <;> cases sO <;> cases eD <;> cases eU <;>
    cases eE <;> cases rE <;>
    simp [process_url, tryPhase, errPhase, cleanupPhase, errorKindIsVideo,
      h4, hv, hi]

/-- C3 amended witness: the concrete failing-remove environment. -/
theorem remove_failure_propagates_witness :
    (process_url removeFailsEnv "v" "tumblr").escaped = true ∧
      (process_url removeFailsEnv "v" "tumblr").events.getLast?
        = some (.removeFile "downloads/987.mp4" false) :=
  remove_failure_propagates removeFailsEnv "v" "tumblr" "downloads/987.mp4"
    rfl rfl rfl (by decide) rfl rfl

/-- C4 counterexample: the Fetcher raises, the error edit raises, the
fallback reply also raises — the fallback is attempted, yet the exception
escapes `process_url`, refuting the claim that no exception raised during
error-reporting ever propagates out of the job. -/
theorem fallback_reply_failure_escapes_cex :
    (process_url errorReportFailsEnv "u" "tiktok").escaped = true ∧
      Event.editStatus (.error false "tiktok") false
        ∈ (process_url errorReportFailsEnv "u" "tiktok").events ∧
      Event.replyError (.error false "tiktok") false
        ∈ (process_url errorReportFailsEnv "u" "tiktok").events := by
  refine ⟨?_, ?_, ?_⟩
  · decide
  · decide
  · decide

/-- As soon as the initial `reply_text` succeeds, `status_message` is
assigned, whatever happens later in the `try` block. -/
theorem tryPhase_statusCreated (env : Env) (url platform : String)
    (h : env.replyStatusOk = true) :
    (tryPhase env url platform).statusCreated = true := by
  cases hmk : env.makedirsOk with
  | false => simp [tryPhase, h, hmk]
  | true =>
    cases hf : env.fetch with
    | none => simp [tryPhase, h, hmk, hf]
    | some p =>
      cases hv : isVideoPath p <;> cases hi : isImagePath p <;>
        cases hs : env.editSendingOk <;> cases ho : env.sendOk <;>
        simp [tryPhase, h, hmk, hf, hv, hi, hs, ho]

/-- C4 amended: on every FAILED path that has a status message (whatever
stage raised — makedirs, download, sending edit, send, final edit,
unsupported edit — and for both the `video` and `media` error variants),
a failing error edit makes `process_url` fall back to posting a fresh
plain-text error reply right after it; the failed edit's exception is
swallowed (the run escapes only if the fallback reply itself or the
cleanup remove raises), but an exception from the unguarded fallback
reply always escapes `process_url`. -/
theorem error_edit_failure_fallback_reply (env : Env) (url platform : String)
    (h1 : env.replyStatusOk = true)
    (hr : (tryPhase env url platform).raised = true)
    (h4 : env.editErrorOk = false) :
    (process_url env url platform).events
        = (tryPhase env url platform).events
          ++ ([.editStatus
                 (.error (errorKindIsVideo (tryPhase env url platform).filePath)
                   platform) false,
               .replyError
                 (.error (errorKindIsVideo (tryPhase env url platform).filePath)
                   platform) env.replyErrorOk]
          ++ (cleanupPhase env (tryPhase env url platform)).1) ∧
      (process_url env url platform).escaped
        = (!env.replyErrorOk
            || (cleanupPhase env (tryPhase env url platform)).2) := by
  have hs := tryPhase_statusCreated env url platform h1
  constructor <;> simp [process_url, errPhase, hr, hs, h4]

/-- C4 amended witness: a send-stage failure (so the `video` error
variant) with failing edit and succeeding fallback reply. -/
theorem error_edit_failure_fallback_reply_witness :
    (process_url sendFailsEditErrorFailsEnv "u" "tiktok").events
        = (tryPhase sendFailsEditErrorFailsEnv "u" "tiktok").events
          ++ ([.editStatus
                 (.error (errorKindIsVideo
                     (tryPhase sendFailsEditErrorFailsEnv "u" "tiktok").filePath)
                   "tiktok") false,
               .replyError
                 (.error (errorKindIsVideo
                     (tryPhase sendFailsEditErrorFailsEnv "u" "tiktok").filePath)
                   "tiktok") sendFailsEditErrorFailsEnv.replyErrorOk]
          ++ (cleanupPhase sendFailsEditErrorFailsEnv
                (tryPhase sendFailsEditErrorFailsEnv "u" "tiktok")).1) ∧
      (process_url sendFailsEditErrorFailsEnv "u" "tiktok").escaped
        = (!sendFailsEditErrorFailsEnv.replyErrorOk
            || (cleanupPhase sendFailsEditErrorFailsEnv
                  (tryPhase sendFailsEditErrorFailsEnv "u" "tiktok")).2) :=
  error_edit_failure_fallback_reply sendFailsEditErrorFailsEnv "u" "tiktok"
    rfl (by decide) rfl

/-- C5: if the Fetcher raises, the run makes no `Sending video...` or
`Sending photo...` edit and no send at all, and (the error edit going
through) the status message ends holding the download-stage error text,
which spells out the capitalized platform name. -/
theorem fetch_failure_no_sending_edit (env : Env) (url platform : String)
    (h1 : env.replyStatusOk = true) (h2 : env.makedirsOk = true)
    (h3 : env.fetch = none) (h4 : env.editErrorOk = true) :
    (process_url env url platform).events.countP isSendingEdit = 0 ∧
      (process_url env url platform).events.countP isSendEvent = 0 ∧
      finalStatusMsg (process_url env url platform).events
        = some (.error false platform) ∧
      (Msg.error false platform).text
        = "Error sending media from "
            ++ (pyCapitalize platform
            ++ ". Please try again or use a different link.") := by
  obtain ⟨rS, mk, f, eS, sO, eD, eU, eE, rE, pE, rO⟩ := env
  simp only at h1 h2 h3 h4
  subst h1 h2 h3 h4
  refine ⟨?_, ?_, ?_, rfl⟩ <;>
    simp [process_url, tryPhase, errPhase, cleanupPhase, errorKindIsVideo,
      finalStatusMsg, isSendingEdit, isSendEvent, List.countP_cons]

/-- C5 witness: concrete run with a failing Fetcher. -/
theorem fetch_failure_no_sending_edit_witness :
    (process_url fetchFailsEnv "u" "tiktok").events.countP isSendingEdit = 0 ∧
      (process_url fetchFailsEnv "u" "tiktok").events.countP isSendEvent = 0 ∧
      finalStatusMsg (process_url fetchFailsEnv "u" "tiktok").events
        = some (.error false "tiktok") ∧
      (Msg.error false "tiktok").text
        = "Error sending media from "
            ++ (pyCapitalize "tiktok"
            ++ ". Please try again or use a different link.") :=
  fetch_failure_no_sending_edit fetchFailsEnv "u" "tiktok" rfl rfl rfl rfl

/-- The `except` block only ever edits the status message to the error
text or posts the error reply, so it contributes nothing to any count of
events those two shapes avoid. -/
theorem errPhase_countP_zero (env : Env) (platform : String) (t : TryOut)
    (q : Event → Bool)
    (h1 : ∀ v ok, q (Event.editStatus (.error v platform) ok) = false)
    (h2 : ∀ v ok, q (Event.replyError (.error v platform) ok) = false) :
    (errPhase env platform t).1.countP q = 0 := by
  unfold errPhase
  cases hr : t.raised <;>
    cases hs : t.statusCreated <;>
    cases he : env.editErrorOk <;>
    simp [List.countP_cons, h1, h2]

/-- The `finally` block only ever attempts a remove, so it contributes
nothing to any count of events that are not removes. -/
theorem cleanupPhase_countP_zero (env : Env) (t : TryOut) (q : Event → Bool)
    (hq : ∀ p ok, q (Event.removeFile p ok) = false) :
    (cleanupPhase env t).1.countP q = 0 := by
  unfold cleanupPhase
  cases ht : t.filePath with
  | none => simp
  | some p =>
    by_cases hp : p = ""
    · simp [hp]
    · cases hpe : env.pathExists <;> simp [hp, hpe, List.countP_cons, hq]

/-- The `try` block attempts the status-message creation exactly once
(successfully when `reply_text` does not raise), and carries every
progress-update text only inside `editStatus` events. -/
theorem tryPhase_status_counts (env : Env) (url platform : String)
    (h : env.replyStatusOk = true) :
    (tryPhase env url platform).events.countP isCreateEvent = 1 ∧
      (tryPhase env url platform).events.countP isCreateOkEvent = 1 ∧
      (tryPhase env url platform).events.countP isProgressPost = 0 := by
  cases hmk : env.makedirsOk
  · refine ⟨?_, ?_, ?_⟩ <;>
      simp [tryPhase, h, hmk, isCreateEvent, isCreateOkEvent, isProgressPost,
        isProgressMsg, List.countP_cons]
  · cases hf : env.fetch with
    | none =>
      refine ⟨?_, ?_, ?_⟩ <;>
        simp [tryPhase, h, hmk, hf, isCreateEvent, isCreateOkEvent,
          isProgressPost, isProgressMsg, List.countP_cons]
    | some p =>
      cases hv : isVideoPath p <;> cases hi : isImagePath p <;>
        cases heS : env.editSendingOk <;> cases hsO : env.sendOk <;>
        refine ⟨?_, ?_, ?_⟩ <;>
        simp [tryPhase, h, hmk, hf, hv, hi, heS, hsO, isCreateEvent,
          isCreateOkEvent, isProgressPost, isProgressMsg, List.countP_cons]

/-- C6: one status message is created (the initial `Processing media
from ...` reply, exactly one creation attempt and exactly one success),
and every progress-update text occurs only in edits of that message —
never in a newly posted message. -/
theorem single_status_message_edit_in_place (env : Env) (url platform : String)
    (h1 : env.replyStatusOk = true) :
    (process_url env url platform).events.countP isCreateEvent = 1 ∧
      (process_url env url platform).events.countP isCreateOkEvent = 1 ∧
      (process_url env url platform).events.countP isProgressPost = 0 := by
  have ht := tryPhase_status_counts env url platform h1
  have he1 := errPhase_countP_zero env platform (tryPhase env url platform)
    isCreateEvent (fun v ok => rfl) (fun v ok => rfl)
  have he2 := errPhase_countP_zero env platform (tryPhase env url platform)
    isCreateOkEvent (fun v ok => rfl) (fun v ok => rfl)
  have he3 := errPhase_countP_zero env platform (tryPhase env url platform)
    isProgressPost (fun v ok => rfl) (fun v ok => rfl)
  have hc1 := cleanupPhase_countP_zero env (tryPhase env url platform)
    isCreateEvent (fun p ok => rfl)
  have hc2 := cleanupPhase_countP_zero env (tryPhase env url platform)
    isCreateOkEvent (fun p ok => rfl)
  have hc3 := cleanupPhase_countP_zero env (tryPhase env url platform)
    isProgressPost (fun p ok => rfl)
  refine ⟨?_, ?_, ?_⟩ <;>
    simp [process_url, List.countP_append, ht.1, ht.2.1, ht.2.2,
      he1, he2, he3, hc1, hc2, hc3]

/-- C6 witness: the happy-path run. -/
theorem single_status_message_edit_in_place_witness :
    (process_url allOkEnv "u" "tiktok").events.countP isCreateEvent = 1 ∧
      (process_url allOkEnv "u" "tiktok").events.countP isCreateOkEvent = 1 ∧
      (process_url allOkEnv "u" "tiktok").events.countP isProgressPost = 0 :=
  single_status_message_edit_in_place allOkEnv "u" "tiktok" rfl

/-- C7: a successful fetch whose extension is outside both known families
sends nothing, edits the status message to the `unsupported media type`
text, never enters the `except` branch (with that edit succeeding), and
still attempts the cleanup remove — after the edit. -/
theorem unsupported_type_normal_cleanup (env : Env) (url platform p : String)
    (h1 : env.replyStatusOk = true) (h2 : env.makedirsOk = true)
    (h3 : env.fetch = some p) (hv : isVideoPath p = false)
    (hi : isImagePath p = false) (h4 : p ≠ "") (h5 : env.pathExists = true)
    (h6 : env.editUnsupportedOk = true) (h7 : env.removeOk = true) :
    (process_url env url platform).events
        = [.createStatus (.processing platform) true,
           .editStatus (.unsupported platform) true,
           .removeFile p true] ∧
      (process_url env url platform).escaped = false := by
  obtain ⟨rS, mk, f, eS, sO, eD, eU, eE, rE, pE, rO⟩ := env
  simp only at h1 h2 h3 h5 h6 h7
  subst h1 h2 h3 h5 h6 h7
  constructor <;>
    simp [process_url, tryPhase, errPhase, cleanupPhase, hv, hi, h4]

/-- C7 witness: concrete run on `downloads/987.bin`. -/
theorem unsupported_type_normal_cleanup_witness :
    (process_url unsupportedEnv "u" "tiktok").events
        = [.createStatus (.processing "tiktok") true,
           .editStatus (.unsupported "tiktok") true,
           .removeFile "downloads/987.bin" true] ∧
      (process_url unsupportedEnv "u" "tiktok").escaped = false :=
  unsupported_type_normal_cleanup unsupportedEnv "u" "tiktok" "downloads/987.bin"
    rfl rfl rfl (by decide) (by decide) (by decide) rfl rfl rfl

/-- C8: if the Fetcher raises before any path is obtained, the status
message is edited (successfully, the edit going through) to the error
text that uses the word `media` and spells out the capitalized platform
name, no remove is ever attempted, and nothing escapes. -/
theorem fetch_failure_media_error_no_remove (env : Env) (url platform : String)
    (h1 : env.replyStatusOk = true) (h2 : env.makedirsOk = true)
    (h3 : env.fetch = none) (h4 : env.editErrorOk = true) :
    (process_url env url platform).events
        = [.createStatus (.processing platform) true,
           .editStatus (.error false platform) true] ∧
      (process_url env url platform).events.countP isRemoveEvent = 0 ∧
      (process_url env url platform).escaped = false ∧
      (Msg.error false platform).text
        = "Error sending media from "
            ++ (pyCapitalize platform
            ++ ". Please try again or use a different link.") := by
  obtain ⟨rS, mk, f, eS, sO, eD, eU, eE, rE, pE, rO⟩ := env
  simp only at h1 h2 h3 h4
  subst h1 h2 h3 h4
  refine ⟨?_, ?_, ?_, rfl⟩ <;>
    simp [process_url, tryPhase, errPhase, cleanupPhase, errorKindIsVideo,
      isRemoveEvent, List.countP_cons]

/-- C8 witness: concrete run with a failing Fetcher. -/
theorem fetch_failure_media_error_no_remove_witness :
    (process_url fetchFailsEnv "u" "tumblr").events
        = [.createStatus (.processing "tumblr") true,
           .editStatus (.error false "tumblr") true] ∧
      (process_url fetchFailsEnv "u" "tumblr").events.countP isRemoveEvent = 0 ∧
      (process_url fetchFailsEnv "u" "tumblr").escaped = false ∧
      (Msg.error false "tumblr").text
        = "Error sending media from "
            ++ (pyCapitalize "tumblr"
            ++ ". Please try again or use a different link.") :=
  fetch_failure_media_error_no_remove fetchFailsEnv "u" "tumblr" rfl rfl rfl rfl

/-- Every match position the findall scan records from position `i` on is
at least `i`. -/
theorem findallPosAux_lb (m : Matcher) :
    ∀ fuel i s q, q ∈ (findallPosAux m fuel i s).map Prod.fst → i ≤ q := by
  intro fuel
  induction fuel with
  | zero => intro i s q hq; simp [findallPosAux] at hq
  | succ n ih =>
    intro i s q hq
    cases s with
    | nil => simp [findallPosAux] at hq
    | cons c rest =>
      cases hm : m (c :: rest) with
      | none =>
        simp only [findallPosAux, hm] at hq
        exact Nat.le_of_succ_le (ih (i + 1) rest q hq)
      | some pr =>
        obtain ⟨rem, v⟩ := pr
        simp only [findallPosAux, hm] at hq
        by_cases h0 : rest.length + 1 - rem.length = 0
        · rw [if_pos h0] at hq
          simp only [List.map_cons, List.mem_cons] at hq
          rcases hq with rfl | hq
          · exact Nat.le_refl q
          · exact Nat.le_of_succ_le (ih (i + 1) rest q hq)
        · rw [if_neg h0] at hq
          simp only [List.map_cons, List.mem_cons] at hq
          rcases hq with rfl | hq
          · exact Nat.le_refl q
          · have := ih (i + (rest.length + 1 - rem.length)) rem q hq
            omega

/-- The match positions the findall scan records are strictly
increasing: matches come in left-to-right text order. -/
theorem findallPosAux_chain (m : Matcher) :
    ∀ fuel i s,
      List.Chain' (· < ·) ((findallPosAux m fuel i s).map Prod.fst) := by
  intro fuel
  induction fuel with
  | zero => intro i s; simp [findallPosAux]
  | succ n ih =>
    intro i s
    cases s with
    | nil => simp [findallPosAux]
    | cons c rest =>
      cases hm : m (c :: rest) with
      | none =>
        simp only [findallPosAux, hm]
        exact ih (i + 1) rest
      | some pr =>
        obtain ⟨rem, v⟩ := pr
        simp only [findallPosAux, hm]
        by_cases h0 : rest.length + 1 - rem.length = 0
        · rw [if_pos h0]
          simp only [List.map_cons]
          rw [List.chain'_cons']
          refine ⟨fun y hy => ?_, ih (i + 1) rest⟩
          have := findallPosAux_lb m n (i + 1) rest y (List.mem_of_mem_head? hy)
          omega
        · rw [if_neg h0]
          simp only [List.map_cons]
          rw [List.chain'_cons']
          refine ⟨fun y hy => ?_, ih (i + (rest.length + 1 - rem.length)) rem⟩
          have := findallPosAux_lb m n (i + (rest.length + 1 - rem.length)) rem y
            (List.mem_of_mem_head? hy)
          omega

/-- A list is pairwise related by any relation that always holds. -/
theorem pairwise_of_total {α : Type} {R : α → α → Prop} (h : ∀ a b, R a b) :
    ∀ l : List α, l.Pairwise R := by
  intro l
  induction l with
  | nil => exact List.Pairwise.nil
  | cons x xs ih => exact List.Pairwise.cons (fun y _ => h x y) ih

/-- C9: the pairs the Link Matcher produces come out grouped by platform
in the declared order of `PLATFORMS` (tiktok, instagram, twitter, tumblr)
and, within each platform, in the left-to-right order of the match
occurrences in the text (strictly increasing match start positions). -/
theorem linkMatches_ordered (text : String) :
    linkMatches text = (linkMatchesPos text).map (fun t => (t.1, t.2.2)) ∧
      linkMatchesPos text
        = ((findallPos tiktokMatch text).map fun iv => ("tiktok", iv.1, iv.2))
          ++ (((findallPos instaMatch text).map fun iv => ("instagram", iv.1, iv.2))
          ++ (((findallPos twitterMatch text).map fun iv => ("twitter", iv.1, iv.2))
          ++ ((findallPos tumblrMatch text).map fun iv => ("tumblr", iv.1, iv.2)))) ∧
      List.Pairwise (fun a b => platRank a.1 ≤ platRank b.1) (linkMatches text) ∧
      List.Chain' (· < ·) ((findallPos tiktokMatch text).map Prod.fst) ∧
      List.Chain' (· < ·) ((findallPos instaMatch text).map Prod.fst) ∧
      List.Chain' (· < ·) ((findallPos twitterMatch text).map Prod.fst) ∧
      List.Chain' (· < ·) ((findallPos tumblrMatch text).map Prod.fst) := by
  refine ⟨?_, ?_, ?_, ?_, ?_, ?_, ?_⟩
  · simp [linkMatches, linkMatchesPos, findall, PLATFORMS, List.map_map,
      Function.comp_def]
  · simp [linkMatchesPos, PLATFORMS]
  · have hblock : ∀ (name : String) (l : List ReVal),
        List.Pairwise (fun (a b : String × ReVal) => platRank a.1 ≤ platRank b.1)
          (l.map fun v => (name, v)) := by
      intro name l
      rw [List.pairwise_map]
      exact pairwise_of_total (fun a b => Nat.le_refl _) l
    simp only [linkMatches, PLATFORMS, List.flatMap_cons, List.flatMap_nil,
      List.append_nil]
    rw [List.pairwise_append]
    refine ⟨hblock _ _, ?_, ?_⟩
    · rw [List.pairwise_append]
      refine ⟨hblock _ _, ?_, ?_⟩
      · rw [List.pairwise_append]
        refine ⟨hblock _ _, hblock _ _, ?_⟩
        intro x hx y hy
        simp only [List.mem_map] at hx hy
        obtain ⟨vx, _, rfl⟩ := hx
        obtain ⟨vy, _, rfl⟩ := hy
        simp [platRank]
      · intro x hx y hy
        simp only [List.mem_append, List.mem_map] at hx hy
        obtain ⟨vx, _, rfl⟩ := hx
        rcases hy with ⟨vy, _, rfl⟩ | ⟨vy, _, rfl⟩ <;> simp [platRank]
    · intro x hx y hy
      simp only [List.mem_append, List.mem_map] at hx hy
      obtain ⟨vx, _, rfl⟩ := hx
      rcases hy with ⟨vy, _, rfl⟩ | ⟨vy, _, rfl⟩ | ⟨vy, _, rfl⟩ <;>
        simp [platRank]
  · exact findallPosAux_chain tiktokMatch _ 0 text.data
  · exact findallPosAux_chain instaMatch _ 0 text.data
  · exact findallPosAux_chain twitterMatch _ 0 text.data
  · exact findallPosAux_chain tumblrMatch _ 0 text.data

/-- Every event a run of the job loop emits from index `i` on is tagged
with a job index of at least `i`. -/
theorem runJobsAux_lb (envs : Nat → Env) :
    ∀ jobs i x, x ∈ (runJobsAux envs i jobs).1 → i ≤ x.1 := by
  intro jobs
  induction jobs with
  | nil => intro i x hx; simp [runJobsAux] at hx
  | cons j rest ih =>
    intro i x hx
    obtain ⟨platform, v⟩ := j
    simp only [runJobsAux] at hx
    by_cases hesc : (process_url (envs i) (ReVal.format v) platform).escaped = true
    · rw [if_pos hesc] at hx
      simp only [List.mem_map] at hx
      obtain ⟨e, _, rfl⟩ := hx
      exact Nat.le_refl i
    · rw [if_neg hesc] at hx
      simp only [List.mem_append, List.mem_map] at hx
      rcases hx with ⟨e, _, rfl⟩ | hx
      · exact Nat.le_refl i
      · exact Nat.le_of_succ_le (ih (i + 1) x hx)

/-- The job loop emits events in non-decreasing job-index order. -/
theorem runJobsAux_pairwise (envs : Nat → Env) :
    ∀ jobs i,
      List.Pairwise (fun (a b : Nat × Event) => a.1 ≤ b.1)
        (runJobsAux envs i jobs).1 := by
  intro jobs
  induction jobs with
  | nil => intro i; simp [runJobsAux]
  | cons j rest ih =>
    intro i
    obtain ⟨platform, v⟩ := j
    simp only [runJobsAux]
    by_cases hesc : (process_url (envs i) (ReVal.format v) platform).escaped = true
    · rw [if_pos hesc]
      rw [List.pairwise_map]
      exact pairwise_of_total (fun a b => Nat.le_refl i) _
    · rw [if_neg hesc]
      rw [List.pairwise_append]
      refine ⟨?_, ih (i + 1), ?_⟩
      · rw [List.pairwise_map]
        exact pairwise_of_total (fun a b => Nat.le_refl i) _
      · intro x hx y hy
        simp only [List.mem_map] at hx
        obtain ⟨e, _, rfl⟩ := hx
        have := runJobsAux_lb envs rest (i + 1) y hy
        omega

/-- C10: `handle_message` runs the matched URLs strictly sequentially —
in the full trace, every event of an earlier job precedes every event of
a later job, so one URL's pipeline (cleanup included) finishes before the
next URL's processing starts. -/
theorem handle_message_sequential (envs : Nat → Env) (text : String) :
    List.Pairwise (fun (a b : Nat × Event) => a.1 ≤ b.1)
      (handle_message envs text).1 := by
  unfold handle_message
  split
  · simp
  · exact runJobsAux_pairwise envs (linkMatches text) 0
